import Mathlib

/-!
Verification development for the static-site build script (build.py) of the
dougs-dharma-index repository.  The script loads a JSON list of video records,
compacts each record to abbreviated keys, computes summary statistics
(distinct topic count, distinct sutta count, date range), substitutes the
results for placeholder tokens in an HTML template by literal substring
replacement, and writes the result to index.html.  Everything here is a
shallow embedding of that script as pure Lean functions: field presence is
an Option, JSON null is an explicit value, Python exceptions are an Except
error, and the one run of the script is a function from the relevant file
contents to the console lines, the written output and the exit outcome.
-/

namespace DharmaBuild

deriving instance DecidableEq for Except

/-- A JSON-ish scalar for record fields: either JSON null or a string.
The script never inspects the type of a field value, so every field that the
data file may carry as null is embedded with this type. -/
inductive StrOrNull where
  | null
  | str (s : String)
deriving DecidableEq

/-- One entry of a record's sutta_refs list (source data model).
A field is none when the key is absent from the JSON object. -/
structure SuttaRef where
  sutta_id : Option StrOrNull := none
  url : Option StrOrNull := none
  label : Option StrOrNull := none
deriving DecidableEq

/-- One entry of a record's other_refs list. -/
structure OtherRef where
  type : Option StrOrNull := none
  label : Option StrOrNull := none
  url : Option StrOrNull := none
deriving DecidableEq

/-- One entry of a record's related_videos list. -/
structure RelatedVideo where
  title : Option StrOrNull := none
  url : Option StrOrNull := none
deriving DecidableEq

/-- One video record of the input JSON array (dougs_dharma_index.json).
A field is none when the key is absent. -/
structure VideoRecord where
  title : Option StrOrNull := none
  date : Option StrOrNull := none
  youtube_url : Option StrOrNull := none
  summary : Option StrOrNull := none
  topics : Option (List String) := none
  sutta_refs : Option (List SuttaRef) := none
  other_refs : Option (List OtherRef) := none
  related_videos : Option (List RelatedVideo) := none
deriving DecidableEq

/-- The Python exceptions the script can raise: KeyError (subscripting a dict
with an absent key; its message carries only the key), ValueError (raised by
datetime.strptime; carries the offending string), and NameError (use of an
unbound variable; carries the variable name). -/
inductive BuildErr where
  | keyError (f : String)
  | valueError (s : String)
  | nameError (n : String)
deriving DecidableEq

/-- Embedding of the compacted sutta_refs entry built at build.py line 59:
id is v[sutta_id] (whatever value it holds), url is s.get(url, ...) with the
empty string as default, and l is s.get(label, ...) or the empty string,
which coalesces both an absent and a null (falsy) label to the string. -/
structure CompactSutta where
  id : StrOrNull
  url : StrOrNull
  l : String
deriving DecidableEq

/-- Embedding of the compacted other_refs entry (build.py line 61). -/
structure CompactOther where
  type : StrOrNull
  label : StrOrNull
  url : StrOrNull
deriving DecidableEq

/-- Embedding of the compacted related_videos entry (build.py line 63). -/
structure CompactRelated where
  t : StrOrNull
  u : StrOrNull
deriving DecidableEq

/-- The compact record built in the loop at build.py lines 53-65.  The field
written under the JSON key named o-r (a Lean keyword, so spelled orf here)
is the compacted other_refs list. -/
structure CompactRecord where
  t : StrOrNull
  d : StrOrNull
  u : StrOrNull
  s : StrOrNull
  tp : List String
  sr : List CompactSutta
  orf : List CompactOther
  rv : List CompactRelated
deriving DecidableEq

/-- Python truthiness coalescing used for the label: s.get(label, ...) or
the empty string.  An absent key, a null value and the empty string are all
falsy and give the empty string; any other string passes through. -/
def labelOrEmpty : Option StrOrNull → String
  | some (.str t) => t
  | _ => ""

/-- Compaction of one sutta_refs entry (build.py lines 59-60).  Subscripting
s with the key sutta_id raises KeyError when the key is absent; url uses the
get default (empty string) but carries a present null through unchanged. -/
def compactSutta (s : SuttaRef) : Except BuildErr CompactSutta :=
  match s.sutta_id with
  | none => .error (.keyError "sutta_id")
  | some i => .ok { id := i, url := s.url.getD (.str ""), l := labelOrEmpty s.label }

/-- Compaction of one other_refs entry (build.py lines 61-62); all three
keys are read with get and an empty-string default, so it cannot fail. -/
def compactOther (r : OtherRef) : CompactOther :=
  { type := r.type.getD (.str ""), label := r.label.getD (.str ""), url := r.url.getD (.str "") }

/-- Compaction of one related_videos entry (build.py lines 63-64); both keys
are read by subscripting, so an absent key raises KeyError. -/
def compactRelated (r : RelatedVideo) : Except BuildErr CompactRelated :=
  match r.title with
  | none => .error (.keyError "title")
  | some t =>
    match r.url with
    | none => .error (.keyError "url")
    | some u => .ok { t := t, u := u }

/-- Left-to-right effectful map over a list in the Except monad, mirroring a
Python list comprehension: the first element that raises propagates its
exception and no later element is evaluated. -/
def mapExcept (f : α → Except BuildErr β) : List α → Except BuildErr (List β)
  | [] => .ok []
  | x :: xs =>
    match f x with
    | .error e => .error e
    | .ok y =>
      match mapExcept f xs with
      | .error e => .error e
      | .ok ys => .ok (y :: ys)

/-- Compaction of one video record (build.py lines 53-65).  The dict literal
evaluates its values in key order, so the possible KeyErrors are raised in
the order title, youtube_url, the sutta_refs entries, the related_videos
entries; get-with-default reads cannot fail. -/
def compactRecord (v : VideoRecord) : Except BuildErr CompactRecord :=
  match v.title with
  | none => .error (.keyError "title")
  | some t =>
    match v.youtube_url with
    | none => .error (.keyError "youtube_url")
    | some u =>
      match mapExcept compactSutta (v.sutta_refs.getD []) with
      | .error e => .error e
      | .ok sr =>
        match mapExcept compactRelated (v.related_videos.getD []) with
        | .error e => .error e
        | .ok rv =>
          .ok { t := t, d := v.date.getD (.str ""), u := u, s := v.summary.getD (.str ""),
                tp := v.topics.getD [], sr := sr,
                orf := (v.other_refs.getD []).map compactOther, rv := rv }

/-- The whole compaction loop (build.py lines 51-65): each record is
compacted in order and the first exception aborts the loop. -/
def compactAll : List VideoRecord → Except BuildErr (List CompactRecord) :=
  mapExcept compactRecord

/-- A Python set grown by set.add, embedded as a duplicate-free list: adding
an element already present leaves the set unchanged.  Only the size of the
final set is observable in the script. -/
def setAdd [DecidableEq α] (s : List α) (x : α) : List α :=
  if x ∈ s then s else x :: s

/-- The topics a record contributes to the stats loop: v.get with an empty
list as default (build.py line 74). -/
def topicsOf (v : VideoRecord) : List String :=
  v.topics.getD []

/-- The all_topics set after the stats loop at build.py lines 71-75. -/
def allTopics (data : List VideoRecord) : List String :=
  data.foldl (fun acc v => (topicsOf v).foldl setAdd acc) []

/-- len(all_topics), the value substituted for PLACEHOLDER_TOPIC_COUNT. -/
def topicCount (data : List VideoRecord) : Nat :=
  (allTopics data).length

/-- The sutta_id values a record contributes to the all_suttas set
(build.py lines 76-77).  Subscripting would raise KeyError on an absent
sutta_id, but the stats loop only runs after compaction has already
subscripted every sutta_refs entry, so here every sutta_id is present and
filterMap drops nothing. -/
def suttaIdsOf (v : VideoRecord) : List StrOrNull :=
  (v.sutta_refs.getD []).filterMap (fun s => s.sutta_id)

/-- The all_suttas set after the stats loop. -/
def allSuttas (data : List VideoRecord) : List StrOrNull :=
  data.foldl (fun acc v => (suttaIdsOf v).foldl setAdd acc) []

/-- len(all_suttas), the value substituted for PLACEHOLDER_SUTTA_COUNT. -/
def suttaCount (data : List VideoRecord) : Nat :=
  (allSuttas data).length

/-- Lexicographic comparison of strings by Unicode code point, exactly the
order Python uses to sort a list of strings.  (Lean's own String order is
not used because its comparison function does not reduce in the kernel.) -/
def strLtB : List Char → List Char → Bool
  | [], [] => false
  | [], _ :: _ => true
  | _ :: _, [] => false
  | c :: a, d :: b =>
    if c.toNat < d.toNat then true
    else if d.toNat < c.toNat then false
    else strLtB a b

/-- The non-strict form of the Python string order. -/
def pyLe (a b : String) : Prop :=
  strLtB b.data a.data = false

instance : DecidableRel pyLe := fun _ _ => inferInstanceAs (Decidable (_ = false))

/-- The non-empty date strings, in record order: the list comprehension at
build.py line 95 keeps v[date] for the records whose v.get(date) is truthy,
so an absent date, a null date and an empty-string date are all skipped. -/
def dateStrings (data : List VideoRecord) : List String :=
  data.filterMap fun v =>
    match v.date with
    | some (.str d) => if d = "" then none else some d
    | _ => none

/-- sorted(...) at build.py line 95: the non-empty dates in ascending
lexicographic order. -/
def sortedDates (data : List VideoRecord) : List String :=
  List.insertionSort pyLe (dateStrings data)

/-- Numeric value of an ASCII digit, none for any other character. -/
def digitVal (c : Char) : Option Nat :=
  if '0' ≤ c ∧ c ≤ '9' then some (c.toNat - 48) else none

/-- The month field of strptime's %Y-%m-%d pattern, whose regex alternation
is 1[0-2], then 0[1-9], then [1-9]: a two-digit month 10-12, a zero-padded
month 01-09, or a bare digit 1-9.  Returns the month and the rest. -/
def parseMonth : List Char → Option (Nat × List Char)
  | [] => none
  | c1 :: rest =>
    match rest with
    | c2 :: rest2 =>
      if c1 = '1' ∧ ('0' ≤ c2 ∧ c2 ≤ '2') then some (10 + (c2.toNat - 48), rest2)
      else if c1 = '0' ∧ ('1' ≤ c2 ∧ c2 ≤ '9') then some (c2.toNat - 48, rest2)
      else
        match digitVal c1 with
        | some v => if 1 ≤ v then some (v, rest) else none
        | none => none
    | [] =>
      match digitVal c1 with
      | some v => if 1 ≤ v then some (v, []) else none
      | none => none

/-- The day field of %d, regex 3[01], then [12] followed by a digit, then
0[1-9], then [1-9]. -/
def parseDay : List Char → Option (Nat × List Char)
  | [] => none
  | c1 :: rest =>
    match rest with
    | c2 :: rest2 =>
      if c1 = '3' ∧ ('0' ≤ c2 ∧ c2 ≤ '1') then some (30 + (c2.toNat - 48), rest2)
      else if (c1 = '1' ∨ c1 = '2') ∧ ('0' ≤ c2 ∧ c2 ≤ '9') then
        some ((c1.toNat - 48) * 10 + (c2.toNat - 48), rest2)
      else if c1 = '0' ∧ ('1' ≤ c2 ∧ c2 ≤ '9') then some (c2.toNat - 48, rest2)
      else
        match digitVal c1 with
        | some v => if 1 ≤ v then some (v, rest) else none
        | none => none
    | [] =>
      match digitVal c1 with
      | some v => if 1 ≤ v then some (v, []) else none
      | none => none

/-- Shape parsing for %Y-%m-%d: a four-digit year, a dash, the month field,
a dash, the day field, and nothing left over. -/
def parseYmd (l : List Char) : Option (Nat × Nat × Nat) :=
  match l with
  | y1 :: y2 :: y3 :: y4 :: sep :: rest =>
    match digitVal y1, digitVal y2, digitVal y3, digitVal y4 with
    | some a, some b, some c, some d =>
      if sep = '-' then
        match parseMonth rest with
        | some (m, rest2) =>
          match rest2 with
          | '-' :: rest3 =>
            match parseDay rest3 with
            | some (dd, rest4) =>
              if rest4 = [] then some (1000 * a + 100 * b + 10 * c + d, m, dd) else none
            | none => none
          | _ => none
        | none => none
      else none
    | _, _, _, _ => none
  | _ => none

/-- Gregorian leap-year rule, as the datetime module applies it. -/
def leapYear (y : Nat) : Bool :=
  y % 4 = 0 ∧ (y % 100 ≠ 0 ∨ y % 400 = 0)

/-- Number of days of a month, for the calendar validation that the
datetime constructor performs. -/
def daysInMonth (y m : Nat) : Nat :=
  if m = 2 then (if leapYear y then 29 else 28)
  else if m = 4 ∨ m = 6 ∨ m = 9 ∨ m = 11 then 30
  else 31

/-- datetime.strptime(s, the %Y-%m-%d pattern): the shape must match and
the result must be a real calendar date with year at least MINYEAR = 1;
otherwise ValueError carrying the offending string. -/
def strptimeYmd (s : String) : Except BuildErr (Nat × Nat × Nat) :=
  match parseYmd s.data with
  | none => .error (.valueError s)
  | some (y, m, d) =>
    if 1 ≤ y ∧ 1 ≤ d ∧ d ≤ daysInMonth y m then .ok (y, m, d) else .error (.valueError s)

/-- English month names as strftime's %B renders them. -/
def monthName : Nat → String
  | 1 => "January"
  | 2 => "February"
  | 3 => "March"
  | 4 => "April"
  | 5 => "May"
  | 6 => "June"
  | 7 => "July"
  | 8 => "August"
  | 9 => "September"
  | 10 => "October"
  | 11 => "November"
  | 12 => "December"
  | _ => ""

/-- strftime of a parsed date with the %B-space-%Y pattern. -/
def fmtMonthYear (p : Nat × Nat × Nat) : String :=
  monthName p.2.1 ++ " " ++ toString p.1

/-- The date-range stage at build.py lines 95-100: sort the non-empty
dates, and when the list is non-empty parse the first and the last and
render each as month-name space year.  Only those two list entries are
ever parsed.  Returns none (and no exception) when no record has a
non-empty date. -/
def buildDateRange (data : List VideoRecord) : Except BuildErr (Option (String × String)) :=
  match sortedDates data with
  | [] => .ok none
  | d0 :: rest =>
    match strptimeYmd d0 with
    | .error e => .error e
    | .ok p0 =>
      match strptimeYmd (rest.getLastD d0) with
      | .error e => .error e
      | .ok p1 => .ok (some (fmtMonthYear p0, fmtMonthYear p1))

/-- Hexadecimal digit as json.dumps renders it (lowercase). -/
def hexDigit (n : Nat) : Char :=
  if n < 10 then Char.ofNat (48 + n) else Char.ofNat (87 + n)

/-- Escaping of one character inside a JSON string literal, following
json.dumps with ensure_ascii False: the quote and backslash are escaped,
the common control characters get their short escapes, other control
characters get a u-escape, and everything else (non-ASCII included) is
emitted literally. -/
def jsonEscChar (c : Char) : List Char :=
  if c = '"' then ['\\', '"']
  else if c = '\\' then ['\\', '\\']
  else if c = '\n' then ['\\', 'n']
  else if c = '\t' then ['\\', 't']
  else if c = '\r' then ['\\', 'r']
  else if c.toNat = 8 then ['\\', 'b']
  else if c.toNat = 12 then ['\\', 'f']
  else if c.toNat < 32 then ['\\', 'u', '0', '0', hexDigit (c.toNat / 16), hexDigit (c.toNat % 16)]
  else [c]

/-- A JSON string literal. -/
def jsonStr (s : String) : String :=
  ⟨'"' :: s.data.flatMap jsonEscChar ++ ['"']⟩

/-- A JSON scalar: null or a string literal. -/
def dumpSN : StrOrNull → String
  | .null => "null"
  | .str s => jsonStr s

/-- A JSON array with the compact comma separator of
json.dumps(..., separators taken as comma and colon). -/
def dumpArr (elems : List String) : String :=
  "[" ++ String.intercalate "," elems ++ "]"

/-- Serialization of a compacted sutta_refs entry, keys in insertion
order id, url, l. -/
def dumpSutta (c : CompactSutta) : String :=
  "\x7b\"id\":" ++ dumpSN c.id ++ ",\"url\":" ++ dumpSN c.url ++ ",\"l\":" ++ jsonStr c.l ++ "\x7d"

/-- Serialization of a compacted other_refs entry. -/
def dumpOther (c : CompactOther) : String :=
  "\x7b\"type\":" ++ dumpSN c.type ++ ",\"label\":" ++ dumpSN c.label
    ++ ",\"url\":" ++ dumpSN c.url ++ "\x7d"

/-- Serialization of a compacted related_videos entry. -/
def dumpRelated (c : CompactRelated) : String :=
  "\x7b\"t\":" ++ dumpSN c.t ++ ",\"u\":" ++ dumpSN c.u ++ "\x7d"

/-- Serialization of one compact record, keys in the insertion order of the
dict literal at build.py lines 53-65. -/
def dumpRecord (c : CompactRecord) : String :=
  "\x7b\"t\":" ++ dumpSN c.t ++ ",\"d\":" ++ dumpSN c.d ++ ",\"u\":" ++ dumpSN c.u
    ++ ",\"s\":" ++ dumpSN c.s ++ ",\"tp\":" ++ dumpArr (c.tp.map jsonStr)
    ++ ",\"sr\":" ++ dumpArr (c.sr.map dumpSutta)
    ++ ",\"or\":" ++ dumpArr (c.orf.map dumpOther)
    ++ ",\"rv\":" ++ dumpArr (c.rv.map dumpRelated) ++ "\x7d"

/-- compact_json at build.py line 66: json.dumps of the compact list with
the compact separators and ensure_ascii False. -/
def dumpCompact (cs : List CompactRecord) : String :=
  dumpArr (cs.map dumpRecord)

/-- Fuel-indexed worker for Python str.replace with a non-empty pattern:
at each position, when the pattern is a prefix the replacement is emitted
and the match is skipped, else one character is copied.  The fuel only
bounds the recursion depth; one unit is spent per step, which always
suffices when the fuel starts at the length of the subject. -/
def pyReplaceGo (pat rep : List Char) : Nat → List Char → List Char
  | 0, s => s
  | _ + 1, [] => []
  | f + 1, c :: cs =>
    if pat ≠ [] ∧ (c :: cs).take pat.length = pat then
      rep ++ pyReplaceGo pat rep f (cs.drop (pat.length - 1))
    else
      c :: pyReplaceGo pat rep f cs

/-- Python str.replace on character lists: replace every non-overlapping
occurrence of pat, scanning left to right.  (The script only ever calls it
with the fixed non-empty placeholder tokens as pat.) -/
def pyReplaceL (pat rep s : List Char) : List Char :=
  pyReplaceGo pat rep s.length s

/-- Python s.replace(pat, rep) on strings. -/
def pyReplace (s pat rep : String) : String :=
  ⟨pyReplaceL pat.data rep.data s.data⟩

/-- The four unconditional placeholder substitutions at build.py
lines 89-92, in their order: the compact JSON, the video count, the topic
count, the sutta count. -/
def replace4 (tpl cj : String) (videoCount tc sc : Nat) : String :=
  pyReplace
    (pyReplace
      (pyReplace
        (pyReplace tpl "PLACEHOLDER_DATA" cj)
        "PLACEHOLDER_VIDEO_COUNT" (toString videoCount))
      "PLACEHOLDER_TOPIC_COUNT" (toString tc))
    "PLACEHOLDER_SUTTA_COUNT" (toString sc)

/-- The parse outcome of the data file when it exists: json.load either
raises JSONDecodeError with a message, or yields the record list. -/
inductive DataDoc where
  | malformed (msg : String)
  | records (data : List VideoRecord)
deriving DecidableEq

/-- The file-system state one run of the script reads: the data file and
the template file (none when absent), plus whatever index.html holds before
the run (the script never reads it, only overwrites it). -/
structure FS where
  dataJson : Option DataDoc := none
  templateHtml : Option String := none
  existingIndex : Option String := none
deriving DecidableEq

/-- How the process ends: a normal return, sys.exit with a code, or an
uncaught exception (which CPython reports with a traceback and a non-zero
exit status). -/
inductive ExitOutcome where
  | ok
  | code (n : Nat)
  | raised (e : BuildErr)
deriving DecidableEq

/-- True when the process exit status is non-zero. -/
def exitNonZero : ExitOutcome → Bool
  | .ok => false
  | .code n => n ≠ 0
  | .raised _ => true

/-- Everything observable about one run: the console lines printed, the
content written to index.html (none when the write statement was never
reached), and the exit outcome. -/
structure RunResult where
  console : List String
  written : Option String
  exit : ExitOutcome
deriving DecidableEq

/-- The two lines printed before any file is touched (build.py
lines 26-27). -/
def headerLines : List String :=
  ["Building Doug\x27s Dharma Video Index...", ""]

/-- Console report line for the loaded data file. -/
def loadedLine (n : Nat) : String :=
  "  ✓ Loaded " ++ toString n ++ " videos from dougs_dharma_index.json"

/-- Console report line for the compacted payload size. -/
def compactedLine (cj : String) : String :=
  "  ✓ Compacted data (" ++ toString (cj.length / 1024) ++ " KB)"

/-- Console report line for the written output size. -/
def createdLine (html : String) : String :=
  "  ✓ Created index.html (" ++ toString (html.length / 1024) ++ " KB)"

/-- The stats summary line at build.py line 109. -/
def statsLine (data : List VideoRecord) : String :=
  "  Stats: " ++ toString data.length ++ " videos, " ++ toString (topicCount data)
    ++ " topics, " ++ toString (suttaCount data) ++ " suttas"

/-- The guidance printed when the data file is absent (build.py
lines 35-36). -/
def dataMissingLines : List String :=
  ["  ✗ ERROR: dougs_dharma_index.json not found!",
   "    Make sure this file is in the same folder as build.py"]

/-- The guidance printed when the data file fails to parse (build.py
lines 39-47). -/
def dataMalformedLines (msg : String) : List String :=
  ["  ✗ ERROR: dougs_dharma_index.json has a formatting error!",
   "    " ++ msg, "",
   "  Common causes:",
   "    - A missing comma between entries",
   "    - A missing quotation mark",
   "    - A stray character", "",
   "  The error is near the line number shown above."]

/-- One full run of build.py as a function of the file-system state,
following the script top to bottom: load the data (exit 1 with guidance
when absent or malformed), compact (KeyError aborts), compute stats, load
the template (exit 1 when absent), substitute the four count placeholders,
compute the date range (ValueError aborts before the write; when no dates
exist the date placeholder is simply not replaced), write index.html, and
print the closing report, whose date-range line raises NameError when the
date branch never bound earliest and latest. -/
def runBuild (fs : FS) : RunResult :=
  match fs.dataJson with
  | none =>
    ⟨headerLines ++ dataMissingLines, none, .code 1⟩
  | some (.malformed msg) =>
    ⟨headerLines ++ dataMalformedLines msg, none, .code 1⟩
  | some (.records data) =>
    let l1 := headerLines ++ [loadedLine data.length]
    match compactAll data with
    | .error e => ⟨l1, none, .raised e⟩
    | .ok cs =>
      let cj := dumpCompact cs
      let l2 := l1 ++ [compactedLine cj]
      match fs.templateHtml with
      | none => ⟨l2 ++ ["  ✗ ERROR: template.html not found!"], none, .code 1⟩
      | some tpl =>
        let l3 := l2 ++ ["  ✓ Loaded template.html"]
        let html := replace4 tpl cj data.length (topicCount data) (suttaCount data)
        match buildDateRange data with
        | .error e => ⟨l3, none, .raised e⟩
        | .ok none =>
          ⟨l3 ++ [createdLine html, "", statsLine data], some html,
           .raised (.nameError "earliest")⟩
        | .ok (some (earliest, latest)) =>
          let range := earliest ++ " – " ++ latest
          let html2 := pyReplace html "PLACEHOLDER_DATE_RANGE" range
          ⟨l3 ++ [createdLine html2, "", statsLine data,
                  "  Date range: " ++ range, "",
                  "Done! You can now:",
                  "  - Open index.html in your browser to preview",
                  "  - Push to GitHub to publish (see the guide)"],
           some html2, .ok⟩

/-- All required keys of a record are present: title, youtube_url, every
sutta_refs entry's sutta_id, and every related_videos entry's title and
url.  These are exactly the keys the compaction loop reads by
subscripting. -/
def requiredOkB (v : VideoRecord) : Bool :=
  v.title.isSome && v.youtube_url.isSome
    && (v.sutta_refs.getD []).all (fun s => s.sutta_id.isSome)
    && (v.related_videos.getD []).all (fun r => r.title.isSome && r.url.isSome)

/-- The key f is required by record v and absent from it (the possible
KeyError payloads of compacting v). -/
def missingNamed (v : VideoRecord) (f : String) : Prop :=
  (f = "title" ∧ (v.title = none ∨ ∃ r ∈ v.related_videos.getD [], r.title = none))
  ∨ (f = "youtube_url" ∧ v.youtube_url = none)
  ∨ (f = "sutta_id" ∧ ∃ s ∈ v.sutta_refs.getD [], s.sutta_id = none)
  ∨ (f = "url" ∧ ∃ r ∈ v.related_videos.getD [], r.url = none)

/-- Field-by-field correspondence between a source sutta_refs entry and its
compact form, as the mapping at build.py line 59 produces it. -/
def SuttaMatches (s : SuttaRef) (c : CompactSutta) : Prop :=
  s.sutta_id = some c.id ∧ c.url = s.url.getD (.str "") ∧ c.l = labelOrEmpty s.label

/-- Field-by-field correspondence for an other_refs entry. -/
def OtherMatches (r : OtherRef) (c : CompactOther) : Prop :=
  c.type = r.type.getD (.str "") ∧ c.label = r.label.getD (.str "") ∧ c.url = r.url.getD (.str "")

/-- Field-by-field correspondence for a related_videos entry. -/
def RelatedMatches (r : RelatedVideo) (c : CompactRelated) : Prop :=
  r.title = some c.t ∧ r.url = some c.u

/-- Field-by-field correspondence between a source record and its compact
form: required fields carried over under the abbreviated keys, optional
fields defaulted to the empty string or the empty list when absent, and the
three nested lists matched entrywise in order. -/
def RecordMatches (v : VideoRecord) (c : CompactRecord) : Prop :=
  v.title = some c.t ∧ c.d = v.date.getD (.str "") ∧ v.youtube_url = some c.u
  ∧ c.s = v.summary.getD (.str "") ∧ c.tp = v.topics.getD []
  ∧ List.Forall₂ SuttaMatches (v.sutta_refs.getD []) c.sr
  ∧ List.Forall₂ OtherMatches (v.other_refs.getD []) c.orf
  ∧ List.Forall₂ RelatedMatches (v.related_videos.getD []) c.rv

theorem mapExcept_forall2 {f : α → Except BuildErr β} :
    ∀ {l : List α} {ys : List β}, mapExcept f l = .ok ys →
      List.Forall₂ (fun x y => f x = .ok y) l ys := by
  intro l
  induction l with
  | nil =>
    intro ys h
    simp only [mapExcept] at h
    cases h
    exact List.Forall₂.nil
  | cons x xs ih =>
    intro ys h
    simp only [mapExcept] at h
    cases hf : f x with
    | error e => rw [hf] at h; cases h
    | ok y =>
      rw [hf] at h
      cases hm : mapExcept f xs with
      | error e => rw [hm] at h; cases h
      | ok zs =>
        rw [hm] at h
        cases h
        exact List.Forall₂.cons hf (ih hm)

theorem mapExcept_of_forall2 {f : α → Except BuildErr β} :
    ∀ {l : List α} {ys : List β}, List.Forall₂ (fun x y => f x = .ok y) l ys →
      mapExcept f l = .ok ys := by
  intro l ys h
  induction h with
  | nil => rfl
  | cons hx _ ih => simp only [mapExcept, hx, ih]

theorem mapExcept_error {f : α → Except BuildErr β} :
    ∀ {l : List α} {e : BuildErr}, mapExcept f l = .error e → ∃ x ∈ l, f x = .error e := by
  intro l
  induction l with
  | nil => intro e h; simp only [mapExcept] at h; cases h
  | cons x xs ih =>
    intro e h
    simp only [mapExcept] at h
    cases hf : f x with
    | error e2 =>
      rw [hf] at h
      cases h
      exact ⟨x, List.mem_cons_self x xs, hf⟩
    | ok y =>
      rw [hf] at h
      cases hm : mapExcept f xs with
      | error e2 =>
        rw [hm] at h
        cases h
        obtain ⟨z, hz, hfz⟩ := ih hm
        exact ⟨z, List.mem_cons_of_mem x hz, hfz⟩
      | ok zs => rw [hm] at h; cases h

theorem mapExcept_exists_ok (f : α → Except BuildErr β) :
    ∀ {l : List α}, (∀ x ∈ l, ∃ y, f x = .ok y) →
      ∃ ys, mapExcept f l = .ok ys ∧ List.Forall₂ (fun x y => f x = .ok y) l ys := by
  intro l
  induction l with
  | nil => intro _; exact ⟨[], rfl, List.Forall₂.nil⟩
  | cons x xs ih =>
    intro h
    obtain ⟨y, hy⟩ := h x (List.mem_cons_self x xs)
    obtain ⟨ys, hys, hall⟩ := ih (fun z hz => h z (List.mem_cons_of_mem x hz))
    exact ⟨y :: ys, by simp only [mapExcept, hy, hys], List.Forall₂.cons hy hall⟩

theorem compactSutta_ok {s : SuttaRef} {c : CompactSutta} (h : compactSutta s = .ok c) :
    SuttaMatches s c := by
  unfold compactSutta at h
  cases hi : s.sutta_id with
  | none => rw [hi] at h; cases h
  | some i =>
    rw [hi] at h
    cases h
    exact ⟨hi, rfl, rfl⟩

theorem compactSutta_error {s : SuttaRef} {e : BuildErr} (h : compactSutta s = .error e) :
    e = .keyError "sutta_id" ∧ s.sutta_id = none := by
  unfold compactSutta at h
  cases hi : s.sutta_id with
  | none => rw [hi] at h; cases h; exact ⟨rfl, rfl⟩
  | some i => rw [hi] at h; cases h

theorem compactSutta_isSome {s : SuttaRef} (h : s.sutta_id.isSome) :
    ∃ c, compactSutta s = .ok c := by
  obtain ⟨i, hi⟩ := Option.isSome_iff_exists.mp h
  exact ⟨_, by unfold compactSutta; rw [hi]⟩

theorem compactRelated_ok {r : RelatedVideo} {c : CompactRelated}
    (h : compactRelated r = .ok c) : RelatedMatches r c := by
  unfold compactRelated at h
  cases ht : r.title with
  | none => rw [ht] at h; cases h
  | some t =>
    rw [ht] at h
    cases hu : r.url with
    | none => rw [hu] at h; cases h
    | some u =>
      rw [hu] at h
      cases h
      exact ⟨ht, hu⟩

theorem compactRelated_error {r : RelatedVideo} {e : BuildErr}
    (h : compactRelated r = .error e) :
    (e = .keyError "title" ∧ r.title = none) ∨ (e = .keyError "url" ∧ r.url = none) := by
  unfold compactRelated at h
  cases ht : r.title with
  | none => rw [ht] at h; cases h; exact Or.inl ⟨rfl, rfl⟩
  | some t =>
    rw [ht] at h
    cases hu : r.url with
    | none => rw [hu] at h; cases h; exact Or.inr ⟨rfl, rfl⟩
    | some u => rw [hu] at h; cases h

theorem compactRelated_isSome {r : RelatedVideo} (ht : r.title.isSome) (hu : r.url.isSome) :
    ∃ c, compactRelated r = .ok c := by
  obtain ⟨t, ht2⟩ := Option.isSome_iff_exists.mp ht
  obtain ⟨u, hu2⟩ := Option.isSome_iff_exists.mp hu
  exact ⟨_, by unfold compactRelated; rw [ht2, hu2]⟩

theorem otherMatches_map (l : List OtherRef) :
    List.Forall₂ OtherMatches l (l.map compactOther) := by
  induction l with
  | nil => exact .nil
  | cons r rs ih => exact .cons ⟨rfl, rfl, rfl⟩ ih

theorem compactRecord_ok_matches {v : VideoRecord} {c : CompactRecord}
    (h : compactRecord v = .ok c) : RecordMatches v c := by
  unfold compactRecord at h
  cases ht : v.title with
  | none => rw [ht] at h; cases h
  | some t =>
    rw [ht] at h
    cases hu : v.youtube_url with
    | none => rw [hu] at h; cases h
    | some u =>
      rw [hu] at h
      cases hsr : mapExcept compactSutta (v.sutta_refs.getD []) with
      | error e => rw [hsr] at h; cases h
      | ok sr =>
        rw [hsr] at h
        cases hrv : mapExcept compactRelated (v.related_videos.getD []) with
        | error e => rw [hrv] at h; cases h
        | ok rv =>
          rw [hrv] at h
          cases h
          refine ⟨ht, rfl, hu, rfl, rfl, ?_, ?_, ?_⟩
          · exact (mapExcept_forall2 hsr).imp fun _ _ hx => compactSutta_ok hx
          · exact otherMatches_map _
          · exact (mapExcept_forall2 hrv).imp fun _ _ hx => compactRelated_ok hx

theorem forall2_mem_left {R : α → β → Prop} {l1 : List α} {l2 : List β}
    (h : List.Forall₂ R l1 l2) : ∀ x ∈ l1, ∃ y ∈ l2, R x y := by
  induction h with
  | nil => intro x hx; cases hx
  | cons hr _ ih =>
    intro x hx
    rcases List.mem_cons.mp hx with rfl | hx2
    · exact ⟨_, List.mem_cons_self _ _, hr⟩
    · obtain ⟨y, hy, hry⟩ := ih x hx2
      exact ⟨y, List.mem_cons_of_mem _ hy, hry⟩

theorem compactRecord_ok_required {v : VideoRecord} {c : CompactRecord}
    (h : compactRecord v = .ok c) : requiredOkB v = true := by
  have hm := compactRecord_ok_matches h
  obtain ⟨ht, _, hu, _, _, hsr, _, hrv⟩ := hm
  simp only [requiredOkB, Bool.and_eq_true, List.all_eq_true]
  refine ⟨⟨⟨?_, ?_⟩, ?_⟩, ?_⟩
  · simp [ht]
  · simp [hu]
  · intro s hs
    obtain ⟨cs2, _, hid, _, _⟩ := forall2_mem_left hsr s hs
    simp [hid]
  · intro r hr
    obtain ⟨cr, _, hti, hui⟩ := forall2_mem_left hrv r hr
    simp [hti, hui]

theorem compactRecord_of_required {v : VideoRecord} (h : requiredOkB v = true) :
    ∃ c, compactRecord v = .ok c ∧ RecordMatches v c := by
  simp only [requiredOkB, Bool.and_eq_true, List.all_eq_true] at h
  obtain ⟨⟨⟨ht, hu⟩, hsr⟩, hrv⟩ := h
  obtain ⟨t, ht2⟩ := Option.isSome_iff_exists.mp ht
  obtain ⟨u, hu2⟩ := Option.isSome_iff_exists.mp hu
  obtain ⟨sr, hsr2, _⟩ := mapExcept_exists_ok compactSutta
    (fun s hs => compactSutta_isSome (by simpa using hsr s hs))
  obtain ⟨rv, hrv2, _⟩ := mapExcept_exists_ok compactRelated
    (fun r hr => by
      have := hrv r hr
      simp only [Bool.and_eq_true] at this
      exact compactRelated_isSome this.1 this.2)
  have hok : compactRecord v = .ok
      { t := t, d := v.date.getD (.str ""), u := u, s := v.summary.getD (.str ""),
        tp := v.topics.getD [], sr := sr,
        orf := (v.other_refs.getD []).map compactOther, rv := rv } := by
    unfold compactRecord
    rw [ht2, hu2, hsr2, hrv2]
  exact ⟨_, hok, compactRecord_ok_matches hok⟩

theorem compactRecord_error_shape {v : VideoRecord} {e : BuildErr}
    (h : compactRecord v = .error e) : ∃ f, e = .keyError f ∧ missingNamed v f := by
  unfold compactRecord at h
  cases ht : v.title with
  | none =>
    rw [ht] at h
    cases h
    exact ⟨"title", rfl, Or.inl ⟨rfl, Or.inl ht⟩⟩
  | some t =>
    rw [ht] at h
    cases hu : v.youtube_url with
    | none =>
      rw [hu] at h
      cases h
      exact ⟨"youtube_url", rfl, Or.inr (Or.inl ⟨rfl, hu⟩)⟩
    | some u =>
      rw [hu] at h
      cases hsr : mapExcept compactSutta (v.sutta_refs.getD []) with
      | error e2 =>
        rw [hsr] at h
        cases h
        obtain ⟨s, hs, hse⟩ := mapExcept_error hsr
        obtain ⟨he, hid⟩ := compactSutta_error hse
        exact ⟨"sutta_id", he, Or.inr (Or.inr (Or.inl ⟨rfl, s, hs, hid⟩))⟩
      | ok sr =>
        rw [hsr] at h
        cases hrv : mapExcept compactRelated (v.related_videos.getD []) with
        | error e2 =>
          rw [hrv] at h
          cases h
          obtain ⟨r, hr, hre⟩ := mapExcept_error hrv
          rcases compactRelated_error hre with ⟨he, hrt⟩ | ⟨he, hru⟩
          · exact ⟨"title", he, Or.inl ⟨rfl, Or.inr ⟨r, hr, hrt⟩⟩⟩
          · exact ⟨"url", he, Or.inr (Or.inr (Or.inr ⟨rfl, r, hr, hru⟩))⟩
        | ok rv => rw [hrv] at h; cases h

theorem compactAll_of_valid {data : List VideoRecord}
    (h : ∀ v ∈ data, requiredOkB v = true) :
    ∃ cs, compactAll data = .ok cs ∧ List.Forall₂ RecordMatches data cs := by
  obtain ⟨cs, hcs, hall⟩ := mapExcept_exists_ok compactRecord
    (fun v hv => (compactRecord_of_required (h v hv)).imp fun _ hc => hc.1)
  exact ⟨cs, hcs, hall.imp fun _ _ hx => compactRecord_ok_matches hx⟩

theorem compactAll_ok_valid {data : List VideoRecord} {cs : List CompactRecord}
    (h : compactAll data = .ok cs) : ∀ v ∈ data, requiredOkB v = true := by
  intro v hv
  obtain ⟨c, _, hvc⟩ := forall2_mem_left (mapExcept_forall2 h) v hv
  exact compactRecord_ok_required hvc

theorem compactAll_error_shape {data : List VideoRecord} {e : BuildErr}
    (h : compactAll data = .error e) :
    ∃ f, e = .keyError f ∧ ∃ v ∈ data, missingNamed v f := by
  obtain ⟨v, hv, hve⟩ := mapExcept_error h
  obtain ⟨f, he, hm⟩ := compactRecord_error_shape hve
  exact ⟨f, he, v, hv, hm⟩

theorem compactAll_invalid_error {data : List VideoRecord}
    (h : ∃ v ∈ data, requiredOkB v = false) :
    ∃ f, compactAll data = .error (.keyError f) ∧ ∃ v ∈ data, missingNamed v f := by
  cases hc : compactAll data with
  | ok cs =>
    obtain ⟨v, hv, hbad⟩ := h
    have := compactAll_ok_valid hc v hv
    rw [this] at hbad
    cases hbad
  | error e =>
    obtain ⟨f, he, hex⟩ := compactAll_error_shape hc
    subst he
    exact ⟨f, rfl, hex⟩

theorem setAdd_nodup [DecidableEq α] {s : List α} (h : s.Nodup) (x : α) :
    (setAdd s x).Nodup := by
  unfold setAdd
  split_ifs with hx
  · exact h
  · exact List.nodup_cons.mpr ⟨hx, h⟩

theorem mem_setAdd [DecidableEq α] {s : List α} {x y : α} :
    y ∈ setAdd s x ↔ y = x ∨ y ∈ s := by
  unfold setAdd
  split_ifs with hx
  · constructor
    · exact fun h => Or.inr h
    · rintro (rfl | h)
      · exact hx
      · exact h
  · simp [List.mem_cons]

theorem foldl_setAdd_nodup [DecidableEq α] :
    ∀ (l : List α) (s : List α), s.Nodup → (l.foldl setAdd s).Nodup := by
  intro l
  induction l with
  | nil => intro s h; exact h
  | cons x xs ih => intro s h; exact ih _ (setAdd_nodup h x)

theorem mem_foldl_setAdd [DecidableEq α] :
    ∀ (l : List α) (s : List α) (y : α), y ∈ l.foldl setAdd s ↔ y ∈ s ∨ y ∈ l := by
  intro l
  induction l with
  | nil => intro s y; simp
  | cons x xs ih =>
    intro s y
    simp only [List.foldl_cons, ih, mem_setAdd, List.mem_cons]
    tauto

theorem foldl_setAdd_flat [DecidableEq α] {g : VideoRecord → List α} :
    ∀ (data : List VideoRecord) (acc : List α),
      data.foldl (fun acc v => (g v).foldl setAdd acc) acc = (data.flatMap g).foldl setAdd acc := by
  intro data
  induction data with
  | nil => intro acc; rfl
  | cons v rest ih =>
    intro acc
    simp only [List.foldl_cons, List.flatMap_cons, List.foldl_append]
    exact ih _

theorem length_nodup_eq_of_mem_iff [DecidableEq α] {l1 l2 : List α}
    (h1 : l1.Nodup) (h2 : l2.Nodup) (h : ∀ x, x ∈ l1 ↔ x ∈ l2) :
    l1.length = l2.length := by
  rw [← List.toFinset_card_of_nodup h1, ← List.toFinset_card_of_nodup h2]
  congr 1
  ext x
  simp only [List.mem_toFinset]
  exact h x

theorem foldl_setAdd_length [DecidableEq α] (l : List α) :
    (l.foldl setAdd ([] : List α)).length = l.dedup.length :=
  length_nodup_eq_of_mem_iff (foldl_setAdd_nodup l [] List.nodup_nil) (List.nodup_dedup l)
    (fun x => by simp [mem_foldl_setAdd, List.mem_dedup])

theorem topicCount_eq_dedup (data : List VideoRecord) :
    topicCount data = ((data.flatMap topicsOf).dedup).length := by
  unfold topicCount allTopics
  rw [foldl_setAdd_flat]
  exact foldl_setAdd_length _

theorem pyReplaceGo_fuel {pat rep : List Char} :
    ∀ (f : Nat) (s : List Char), s.length ≤ f →
      pyReplaceGo pat rep f s = pyReplaceL pat rep s := by
  intro f
  induction f using Nat.strong_induction_on with
  | _ f ih =>
    intro s hs
    match f, s with
    | 0, s =>
      have : s = [] := List.length_eq_zero.mp (Nat.le_zero.mp hs)
      subst this
      rfl
    | f + 1, [] => rfl
    | f + 1, c :: cs =>
      show _ = pyReplaceGo pat rep (c :: cs).length (c :: cs)
      simp only [List.length_cons, pyReplaceGo]
      split_ifs with h
      · have hlen : (cs.drop (pat.length - 1)).length ≤ f := by
          rw [List.length_drop]
          simp only [List.length_cons] at hs
          omega
        have hlen2 : (cs.drop (pat.length - 1)).length ≤ cs.length := by
          rw [List.length_drop]; omega
        rw [ih f (by omega) _ hlen, ih cs.length (by simp only [List.length_cons] at hs; omega) _ hlen2]
      · have hle : cs.length ≤ f := by simp only [List.length_cons] at hs; omega
        rw [ih f (by omega) cs hle, ih cs.length (by omega) cs le_rfl]

theorem pyReplaceL_cons (pat rep : List Char) (c : Char) (cs : List Char) :
    pyReplaceL pat rep (c :: cs) =
      if pat ≠ [] ∧ (c :: cs).take pat.length = pat then
        rep ++ pyReplaceL pat rep (cs.drop (pat.length - 1))
      else c :: pyReplaceL pat rep cs := by
  show pyReplaceGo pat rep (cs.length + 1) (c :: cs) = _
  simp only [pyReplaceGo]
  split_ifs with h
  · rw [pyReplaceGo_fuel cs.length _ (by rw [List.length_drop]; omega)]
  · rw [pyReplaceGo_fuel cs.length cs le_rfl]

/-- Absence of boundary overlap between a replacement pattern and a token:
the pattern does not occur inside the token, the token does not occur
inside the pattern, no proper prefix of the token is a suffix of the
pattern, and no proper suffix of the token is a prefix of the pattern.
Under this condition a replacement pass can never consume characters of an
occurrence of the token.  It is decidable, and holds for each of the four
count placeholders against the date-range placeholder. -/
def NoOverlap (pat tok : List Char) : Prop :=
  (∀ i < tok.length, ¬ (i + pat.length ≤ tok.length ∧ (tok.drop i).take pat.length = pat))
  ∧ (∀ i < pat.length, ¬ (i + tok.length ≤ pat.length ∧ (pat.drop i).take tok.length = tok))
  ∧ (∀ k < tok.length, ¬ (0 < k ∧ k ≤ pat.length ∧ pat.drop (pat.length - k) = tok.take k))
  ∧ (∀ k < tok.length, ¬ (0 < k ∧ k ≤ pat.length ∧ pat.take k = tok.drop (tok.length - k)))

theorem noOverlap_no_head_match {pat tok : List Char} (hno : NoOverlap pat tok)
    (hp : pat ≠ []) :
    ∀ i < tok.length, ∀ b : List Char, (tok.drop i ++ b).take pat.length ≠ pat := by
  intro i hi b hEq
  have hdl : (tok.drop i).length = tok.length - i := List.length_drop i tok
  by_cases hle : pat.length ≤ tok.length - i
  · rw [List.take_append_eq_append_take, hdl,
        show pat.length - (tok.length - i) = 0 by omega, List.take_zero,
        List.append_nil] at hEq
    exact hno.1 i hi ⟨by omega, hEq⟩
  · have hk1 : 1 ≤ tok.length - i := by omega
    have hkP : tok.length - i < pat.length := by omega
    have hfull : (tok.drop i).take (tok.length - i) = tok.drop i := by
      rw [← hdl]
      exact List.take_length _
    have htake := congrArg (List.take (tok.length - i)) hEq
    rw [List.take_take, min_eq_left (le_of_lt hkP), List.take_append_eq_append_take, hdl,
        Nat.sub_self, List.take_zero, List.append_nil, hfull] at htake
    by_cases hiz : i = 0
    · subst hiz
      simp only [List.drop_zero, Nat.sub_zero] at htake
      have hplen : 0 < pat.length := List.length_pos.mpr hp
      exact hno.2.1 0 hplen ⟨by omega, by simpa using htake.symm⟩
    · refine hno.2.2.2 (tok.length - i) (by omega) ⟨by omega, by omega, ?_⟩
      rw [show tok.length - (tok.length - i) = i by omega]
      exact htake.symm

theorem pyReplaceL_skip {pat rep : List Char} :
    ∀ (t b : List Char), (∀ i < t.length, (t.drop i ++ b).take pat.length ≠ pat) →
      pyReplaceL pat rep (t ++ b) = t ++ pyReplaceL pat rep b := by
  intro t
  induction t with
  | nil => intro b _; simp
  | cons c t ih =>
    intro b h
    rw [List.cons_append, pyReplaceL_cons]
    have h0 : (c :: (t ++ b)).take pat.length ≠ pat := by
      have := h 0 (by simp)
      simpa using this
    rw [if_neg (fun hc => h0 hc.2)]
    rw [ih b (fun i hi => by
      have := h (i + 1) (by simp only [List.length_cons]; omega)
      simpa using this)]
    rfl

theorem pyReplaceL_keeps_tok {pat rep tok : List Char} (hp : pat ≠ [])
    (hno : NoOverlap pat tok) :
    ∀ (a b : List Char), ∃ a2 b2,
      pyReplaceL pat rep (a ++ tok ++ b) = a2 ++ tok ++ b2 := by
  have base : ∀ b, pyReplaceL pat rep (tok ++ b) = tok ++ pyReplaceL pat rep b :=
    fun b => pyReplaceL_skip tok b (fun i hi => noOverlap_no_head_match hno hp i hi b)
  suffices H : ∀ n (a b : List Char), a.length ≤ n → ∃ a2 b2,
      pyReplaceL pat rep (a ++ tok ++ b) = a2 ++ tok ++ b2 by
    exact fun a b => H a.length a b le_rfl
  intro n
  induction n with
  | zero =>
    intro a b ha
    have : a = [] := List.length_eq_zero.mp (Nat.le_zero.mp ha)
    subst this
    exact ⟨[], pyReplaceL pat rep b, by simpa [List.append_assoc] using base b⟩
  | succ n ih =>
    intro a b ha
    match a with
    | [] => exact ⟨[], pyReplaceL pat rep b, by simpa [List.append_assoc] using base b⟩
    | c :: a1 =>
      have hsplit : (c :: a1) ++ tok ++ b = c :: (a1 ++ tok ++ b) := by simp
      rw [hsplit, pyReplaceL_cons]
      by_cases hc : pat ≠ [] ∧ (c :: (a1 ++ tok ++ b)).take pat.length = pat
      · rw [if_pos hc]
        have hPA : pat.length ≤ a1.length + 1 := by
          by_contra hgt
          push_neg at hgt
          have hs2 : c :: (a1 ++ tok ++ b) = (c :: a1) ++ (tok ++ b) := by simp
          have hEq := hc.2
          rw [hs2, List.take_append_eq_append_take,
              List.take_of_length_le
                (show (c :: a1).length ≤ pat.length by simp only [List.length_cons]; omega),
              List.length_cons] at hEq
          have hdropA := congrArg (List.drop (a1.length + 1)) hEq.symm
          rw [show a1.length + 1 = (c :: a1).length by simp, List.drop_left] at hdropA
          set K := pat.length - (c :: a1).length with hK
          simp only [List.length_cons] at hdropA hK
          have hK1 : 1 ≤ K := by omega
          by_cases hTK : tok.length ≤ K
          · rw [List.take_append_eq_append_take, List.take_of_length_le hTK] at hdropA
            have htk := congrArg (List.take tok.length) hdropA
            rw [List.take_append_eq_append_take, List.take_length, Nat.sub_self,
                List.take_zero, List.append_nil] at htk
            exact hno.2.1 (a1.length + 1) (by omega) ⟨by omega, htk⟩
          · push_neg at hTK
            rw [List.take_append_eq_append_take,
                show K - tok.length = 0 by omega, List.take_zero,
                List.append_nil] at hdropA
            refine hno.2.2.1 K hTK ⟨by omega, by omega, ?_⟩
            rw [show pat.length - K = a1.length + 1 by omega]
            exact hdropA
        have hdrop : (a1 ++ tok ++ b).drop (pat.length - 1)
            = a1.drop (pat.length - 1) ++ tok ++ b := by
          rw [List.append_assoc, List.drop_append_eq_append_drop,
              show pat.length - 1 - a1.length = 0 by omega, List.drop_zero,
              ← List.append_assoc]
        obtain ⟨a2, b2, hrec⟩ := ih (a1.drop (pat.length - 1)) b
          (by rw [List.length_drop]; simp only [List.length_cons] at ha; omega)
        refine ⟨rep ++ a2, b2, ?_⟩
        rw [hdrop, hrec, List.append_assoc, List.append_assoc, List.append_assoc]
      · rw [if_neg hc]
        obtain ⟨a2, b2, hrec⟩ := ih a1 b (by simp only [List.length_cons] at ha; omega)
        exact ⟨c :: a2, b2, by rw [hrec]; rfl⟩

/-- The token tok occurs in s as a contiguous substring. -/
def strContains (tok s : String) : Prop :=
  ∃ a b, s.data = a ++ tok.data ++ b

theorem pyReplace_keeps {s pat rep tok : String} (hp : pat.data ≠ [])
    (hno : NoOverlap pat.data tok.data) (h : strContains tok s) :
    strContains tok (pyReplace s pat rep) := by
  obtain ⟨a, b, hab⟩ := h
  obtain ⟨a2, b2, h2⟩ := pyReplaceL_keeps_tok hp hno a b
  refine ⟨a2, b2, ?_⟩
  show pyReplaceL pat.data rep.data s.data = _
  rw [hab]
  exact h2

instance (pat tok : List Char) : Decidable (NoOverlap pat tok) := by
  unfold NoOverlap
  infer_instance

theorem noOverlap_tok_data :
    NoOverlap "PLACEHOLDER_DATA".data "PLACEHOLDER_DATE_RANGE".data := by decide

theorem noOverlap_tok_video :
    NoOverlap "PLACEHOLDER_VIDEO_COUNT".data "PLACEHOLDER_DATE_RANGE".data := by decide

theorem noOverlap_tok_topic :
    NoOverlap "PLACEHOLDER_TOPIC_COUNT".data "PLACEHOLDER_DATE_RANGE".data := by decide

theorem noOverlap_tok_sutta :
    NoOverlap "PLACEHOLDER_SUTTA_COUNT".data "PLACEHOLDER_DATE_RANGE".data := by decide

theorem replace4_keeps_dateTok {tpl : String} (cj : String) (n tc sc : Nat)
    (h : strContains "PLACEHOLDER_DATE_RANGE" tpl) :
    strContains "PLACEHOLDER_DATE_RANGE" (replace4 tpl cj n tc sc) := by
  unfold replace4
  exact pyReplace_keeps (by decide) noOverlap_tok_sutta
    (pyReplace_keeps (by decide) noOverlap_tok_topic
      (pyReplace_keeps (by decide) noOverlap_tok_video
        (pyReplace_keeps (by decide) noOverlap_tok_data h)))

theorem strLtB_asym : ∀ a b, strLtB a b = true → strLtB b a = false := by
  intro a
  induction a with
  | nil =>
    intro b h
    cases b with
    | nil => simp [strLtB] at h
    | cons d bs => simp [strLtB]
  | cons c as ih =>
    intro b h
    cases b with
    | nil => simp [strLtB] at h
    | cons d bs =>
      simp only [strLtB] at h ⊢
      rcases Nat.lt_trichotomy c.toNat d.toNat with hlt | heq | hgt
      · rw [if_neg (by omega), if_pos hlt]
      · rw [if_neg (by omega), if_neg (by omega)] at h ⊢
        exact ih bs h
      · rw [if_neg (by omega), if_pos hgt] at h
        cases h

theorem strLtB_connex : ∀ a b, strLtB a b = false → strLtB b a = false → a = b := by
  intro a
  induction a with
  | nil =>
    intro b h1 _
    cases b with
    | nil => rfl
    | cons d bs => simp [strLtB] at h1
  | cons c as ih =>
    intro b h1 h2
    cases b with
    | nil => simp [strLtB] at h2
    | cons d bs =>
      simp only [strLtB] at h1 h2
      rcases Nat.lt_trichotomy c.toNat d.toNat with hlt | heq | hgt
      · rw [if_pos hlt] at h1; cases h1
      · rw [if_neg (by omega), if_neg (by omega)] at h1
        rw [if_neg (by omega), if_neg (by omega)] at h2
        have : c = d := Char.eq_of_val_eq (UInt32.ext heq)
        rw [this, ih bs h1 h2]
      · rw [if_pos hgt] at h2; cases h2

theorem strLtB_trans : ∀ a b c, strLtB a b = true → strLtB b c = true → strLtB a c = true := by
  intro a
  induction a with
  | nil =>
    intro b c h1 h2
    cases b with
    | nil => simp [strLtB] at h1
    | cons e bs =>
      cases c with
      | nil => simp [strLtB] at h2
      | cons g cs => simp [strLtB]
  | cons d as ih =>
    intro b c h1 h2
    cases b with
    | nil => simp [strLtB] at h1
    | cons e bs =>
      cases c with
      | nil => simp [strLtB] at h2
      | cons g cs =>
        simp only [strLtB] at h1 h2 ⊢
        rcases Nat.lt_trichotomy d.toNat e.toNat with hde | hde | hde
        · rcases Nat.lt_trichotomy e.toNat g.toNat with heg | heg | heg
          · rw [if_pos (by omega)]
          · rw [if_pos (by omega)]
          · rw [if_neg (by omega), if_pos heg] at h2; cases h2
        · rcases Nat.lt_trichotomy e.toNat g.toNat with heg | heg | heg
          · rw [if_pos (by omega)]
          · rw [if_neg (by omega), if_neg (by omega)] at h1
            rw [if_neg (by omega), if_neg (by omega)] at h2
            rw [if_neg (by omega), if_neg (by omega)]
            exact ih bs cs h1 h2
          · rw [if_neg (by omega), if_pos heg] at h2; cases h2
        · rw [if_neg (by omega), if_pos hde] at h1; cases h1

instance : IsTotal String pyLe :=
  ⟨by
    intro a b
    unfold pyLe
    cases h : strLtB b.data a.data
    · exact Or.inl rfl
    · exact Or.inr (strLtB_asym _ _ h)⟩

instance : IsTrans String pyLe :=
  ⟨by
    intro a b c hab hbc
    unfold pyLe at hab hbc ⊢
    cases hca : strLtB c.data a.data
    · rfl
    · exfalso
      cases hab2 : strLtB a.data b.data
      · have heq := strLtB_connex _ _ hab2 hab
        rw [heq] at hca
        rw [hca] at hbc
        cases hbc
      · have := strLtB_trans _ _ _ hca hab2
        rw [this] at hbc
        cases hbc⟩

theorem sortedDates_sorted (data : List VideoRecord) :
    (sortedDates data).Sorted pyLe :=
  List.sorted_insertionSort pyLe (dateStrings data)

theorem sortedDates_perm (data : List VideoRecord) :
    (sortedDates data).Perm (dateStrings data) :=
  List.perm_insertionSort pyLe (dateStrings data)

theorem runBuild_eval {data : List VideoRecord} {tpl : String} {ei : Option String}
    {cs : List CompactRecord} (hcs : compactAll data = .ok cs) :
    runBuild ⟨some (.records data), some tpl, ei⟩ =
      (let cj := dumpCompact cs
       let l3 := headerLines ++ [loadedLine data.length, compactedLine cj,
                 "  ✓ Loaded template.html"]
       let html := replace4 tpl cj data.length (topicCount data) (suttaCount data)
       match buildDateRange data with
       | .error e => ⟨l3, none, .raised e⟩
       | .ok none =>
         ⟨l3 ++ [createdLine html, "", statsLine data], some html,
          .raised (.nameError "earliest")⟩
       | .ok (some (earliest, latest)) =>
         let range := earliest ++ " – " ++ latest
         let html2 := pyReplace html "PLACEHOLDER_DATE_RANGE" range
         ⟨l3 ++ [createdLine html2, "", statsLine data,
                 "  Date range: " ++ range, "",
                 "Done! You can now:",
                 "  - Open index.html in your browser to preview",
                 "  - Push to GitHub to publish (see the guide)"],
          some html2, .ok⟩) := by
  simp only [runBuild, hcs]
  rfl

theorem runBuild_noDates (ei : Option String) {data : List VideoRecord} {tpl : String}
    {cs : List CompactRecord} (hcs : compactAll data = .ok cs)
    (hnod : dateStrings data = []) :
    (runBuild ⟨some (.records data), some tpl, ei⟩).written
        = some (replace4 tpl (dumpCompact cs) data.length (topicCount data) (suttaCount data))
    ∧ (runBuild ⟨some (.records data), some tpl, ei⟩).exit = .raised (.nameError "earliest") := by
  have hbdr : buildDateRange data = .ok none := by
    unfold buildDateRange sortedDates
    rw [hnod]
    rfl
  rw [runBuild_eval hcs, hbdr]
  exact ⟨rfl, rfl⟩

theorem runBuild_compactError {data : List VideoRecord} {dj : Option DataDoc}
    {th ei : Option String} {e : BuildErr}
    (hd : dj = some (.records data)) (hce : compactAll data = .error e) :
    runBuild ⟨dj, th, ei⟩ = ⟨headerLines ++ [loadedLine data.length], none, .raised e⟩ := by
  subst hd
  simp only [runBuild, hce]

/-- C4: when the data file is absent the run prints the two guidance lines
after the banner, writes or modifies no output file, and exits with code 1
(build.py lines 34-37). -/
theorem c4_missing_data_file {fs : FS} (hd : fs.dataJson = none) :
    (runBuild fs).console = headerLines ++ dataMissingLines
    ∧ (runBuild fs).written = none
    ∧ (runBuild fs).exit = .code 1 := by
  cases fs with
  | mk dj th ei =>
    simp only [FS.dataJson] at hd
    subst hd
    exact ⟨rfl, rfl, rfl⟩

/-- Witness for C4 at a concrete state: the template and a previous
index.html exist but the data file does not. -/
theorem c4_missing_data_file_witness :
    (runBuild ⟨none, some "T", some "old"⟩).console = headerLines ++ dataMissingLines
    ∧ (runBuild ⟨none, some "T", some "old"⟩).written = none
    ∧ (runBuild ⟨none, some "T", some "old"⟩).exit = .code 1 :=
  c4_missing_data_file rfl

/-- C8: the run is a deterministic function of the data file and the
template file alone; two runs over the same two inputs produce the same
console lines, the same written bytes and the same exit outcome, whatever
index.html held beforehand. -/
theorem c8_deterministic {fs1 fs2 : FS}
    (hd : fs1.dataJson = fs2.dataJson) (ht : fs1.templateHtml = fs2.templateHtml) :
    runBuild fs1 = runBuild fs2 := by
  cases fs1 with
  | mk d1 t1 e1 =>
    cases fs2 with
    | mk d2 t2 e2 =>
      simp only [FS.dataJson, FS.templateHtml] at hd ht
      subst hd
      subst ht
      rfl

/-- Witness for C8: two states agreeing on the inputs but with different
prior output files give identical runs. -/
theorem c8_deterministic_witness :
    runBuild ⟨some (.records []), some "T", none⟩
      = runBuild ⟨some (.records []), some "T", some "old"⟩ :=
  c8_deterministic rfl rfl

/-- The diagnostic line CPython prints for an uncaught KeyError: the word
KeyError and the repr of the missing key, nothing else — in particular no
record index. -/
def keyErrorMessage (f : String) : String :=
  "KeyError: \x27" ++ f ++ "\x27"

/-- Boolean substring test, used to ask whether a diagnostic names a piece
of text. -/
def occursB (tok s : String) : Bool :=
  (List.range (s.length + 1)).any fun i =>
    decide ((s.data.drop i).take tok.data.length = tok.data)

/-- A fully valid record, with a sutta reference whose url and label are
present but null. -/
def goodRec : VideoRecord :=
  { title := some (.str "Intro to the Dhamma"),
    youtube_url := some (.str "https://youtu.be/a1"),
    date := some (.str "2020-01-01"), topics := some ["mind"],
    sutta_refs := some [{ sutta_id := some (.str "MN 1"), url := some .null,
                          label := some .null }] }

/-- A record lacking the required title key. -/
def badRec : VideoRecord :=
  { youtube_url := some (.str "https://youtu.be/b2") }

/-- A valid record with no date key at all. -/
def noDateRec : VideoRecord :=
  { title := some (.str "No date"), youtube_url := some (.str "https://youtu.be/n0") }

/-- C1 (counterexample): with the record lacking its title at index 1, the
failure raised during compaction is KeyError carrying only the key: its
diagnostic names the missing field but does not name the index 1 of the
offending record, so the claim that the error names both is false; the
build still aborts before writing any output. -/
theorem c1_counterexample :
    compactAll [goodRec, badRec] = .error (.keyError "title")
    ∧ occursB "title" (keyErrorMessage "title") = true
    ∧ occursB "1" (keyErrorMessage "title") = false
    ∧ (runBuild ⟨some (.records [goodRec, badRec]), some "T", none⟩).written = none := by
  exact ⟨by decide, by decide, by decide, by decide⟩

/-- C1 (amended): for every input list containing a record that lacks a
required field, the build aborts before writing any output file, and the
failure raised during compaction is a KeyError naming the missing field —
but not the index of the offending record. -/
theorem c1_missing_required_aborts {fs : FS} {data : List VideoRecord}
    (hd : fs.dataJson = some (.records data))
    (h : ∃ v ∈ data, requiredOkB v = false) :
    (∃ f, compactAll data = .error (.keyError f) ∧ (∃ v ∈ data, missingNamed v f)
       ∧ (runBuild fs).exit = .raised (.keyError f))
    ∧ (runBuild fs).written = none := by
  obtain ⟨f, hcf, hex⟩ := compactAll_invalid_error h
  cases fs with
  | mk dj th ei =>
    simp only [FS.dataJson] at hd
    rw [runBuild_compactError hd hcf]
    exact ⟨⟨f, hcf, hex, rfl⟩, rfl⟩

/-- Witness for the amended C1 at a concrete state with the offending
record at index 1. -/
theorem c1_missing_required_aborts_witness :
    (∃ f, compactAll [goodRec, badRec] = .error (.keyError f)
       ∧ (∃ v ∈ [goodRec, badRec], missingNamed v f)
       ∧ (runBuild ⟨some (.records [goodRec, badRec]), some "T", none⟩).exit
           = .raised (.keyError f))
    ∧ (runBuild ⟨some (.records [goodRec, badRec]), some "T", none⟩).written = none :=
  c1_missing_required_aborts rfl ⟨badRec, by decide, by decide⟩

/-- C2: when no record has a non-empty date, the run still writes the
output, the written text is exactly the template with the four count
placeholders substituted as usual, and the literal token
PLACEHOLDER_DATE_RANGE of the template is still present, unreplaced, in the
written text (build.py lines 89-104: the date branch at 96-100 is
skipped). -/
theorem c2_no_dates_leaves_token {fs : FS} {data : List VideoRecord} {tpl : String}
    (hd : fs.dataJson = some (.records data)) (ht : fs.templateHtml = some tpl)
    (hv : ∀ v ∈ data, requiredOkB v = true)
    (hnod : dateStrings data = [])
    (htok : strContains "PLACEHOLDER_DATE_RANGE" tpl) :
    ∃ cs, compactAll data = .ok cs
      ∧ (runBuild fs).written
          = some (replace4 tpl (dumpCompact cs) data.length (topicCount data) (suttaCount data))
      ∧ strContains "PLACEHOLDER_DATE_RANGE"
          (replace4 tpl (dumpCompact cs) data.length (topicCount data) (suttaCount data)) := by
  obtain ⟨cs, hcs, _⟩ := compactAll_of_valid hv
  cases fs with
  | mk dj th ei =>
    simp only [FS.dataJson, FS.templateHtml] at hd ht
    subst hd
    subst ht
    obtain ⟨hw, _⟩ := runBuild_noDates ei hcs hnod
    exact ⟨cs, hcs, hw, replace4_keeps_dateTok _ _ _ _ htok⟩

/-- Witness for C2 at a concrete one-record dateless list and a template
holding the date-range token. -/
theorem c2_no_dates_leaves_token_witness :
    ∃ cs, compactAll [noDateRec] = .ok cs
      ∧ (runBuild ⟨some (.records [noDateRec]),
            some "<span>PLACEHOLDER_DATE_RANGE</span>", none⟩).written
          = some (replace4 "<span>PLACEHOLDER_DATE_RANGE</span>" (dumpCompact cs)
              [noDateRec].length (topicCount [noDateRec]) (suttaCount [noDateRec]))
      ∧ strContains "PLACEHOLDER_DATE_RANGE"
          (replace4 "<span>PLACEHOLDER_DATE_RANGE</span>" (dumpCompact cs)
            [noDateRec].length (topicCount [noDateRec]) (suttaCount [noDateRec])) :=
  c2_no_dates_leaves_token rfl rfl (by decide) (by decide)
    ⟨"<span>".data, "</span>".data, by decide⟩

/-- C3: when no record has a non-empty date, the run writes the full output
file (all four count substitutions applied) and then terminates with an
uncaught NameError on the name earliest, raised by the final console report
at build.py line 110, which is a non-zero process exit even though
index.html was produced in full. -/
theorem c3_no_dates_nameerror {fs : FS} {data : List VideoRecord} {tpl : String}
    (hd : fs.dataJson = some (.records data)) (ht : fs.templateHtml = some tpl)
    (hv : ∀ v ∈ data, requiredOkB v = true)
    (hnod : dateStrings data = []) :
    ∃ cs, compactAll data = .ok cs
      ∧ (runBuild fs).written
          = some (replace4 tpl (dumpCompact cs) data.length (topicCount data) (suttaCount data))
      ∧ (runBuild fs).exit = .raised (.nameError "earliest")
      ∧ exitNonZero (runBuild fs).exit = true := by
  obtain ⟨cs, hcs, _⟩ := compactAll_of_valid hv
  cases fs with
  | mk dj th ei =>
    simp only [FS.dataJson, FS.templateHtml] at hd ht
    subst hd
    subst ht
    obtain ⟨hw, he⟩ := runBuild_noDates ei hcs hnod
    refine ⟨cs, hcs, hw, he, ?_⟩
    rw [he]
    rfl

/-- Witness for C3 at a concrete one-record dateless list. -/
theorem c3_no_dates_nameerror_witness :
    ∃ cs, compactAll [noDateRec] = .ok cs
      ∧ (runBuild ⟨some (.records [noDateRec]), some "T", none⟩).written
          = some (replace4 "T" (dumpCompact cs) [noDateRec].length
              (topicCount [noDateRec]) (suttaCount [noDateRec]))
      ∧ (runBuild ⟨some (.records [noDateRec]), some "T", none⟩).exit
          = .raised (.nameError "earliest")
      ∧ exitNonZero (runBuild ⟨some (.records [noDateRec]), some "T", none⟩).exit = true :=
  c3_no_dates_nameerror rfl rfl (by decide) (by decide)

/-- C5: for every valid input list compaction succeeds, the compact list
has the same length as the input, and record by record the compact fields
match the source fields under the abbreviation mapping with the defaults
for absent optional fields. -/
theorem c5_compact_shape {data : List VideoRecord}
    (h : ∀ v ∈ data, requiredOkB v = true) :
    ∃ cs, compactAll data = .ok cs ∧ cs.length = data.length
      ∧ List.Forall₂ RecordMatches data cs := by
  obtain ⟨cs, hcs, hall⟩ := compactAll_of_valid h
  exact ⟨cs, hcs, hall.length_eq.symm, hall⟩

/-- Witness for C5 at a concrete two-record valid list. -/
theorem c5_compact_shape_witness :
    ∃ cs, compactAll [goodRec, noDateRec] = .ok cs
      ∧ cs.length = [goodRec, noDateRec].length
      ∧ List.Forall₂ RecordMatches [goodRec, noDateRec] cs :=
  c5_compact_shape (by decide)

/-- C6: the count the build substitutes for PLACEHOLDER_TOPIC_COUNT is
len(all_topics), and it equals the number of distinct topic strings across
all records, duplicates within one record or across records counted
once. -/
theorem c6_topic_count_distinct (data : List VideoRecord) (tpl cj : String) (sc : Nat) :
    topicCount data = ((data.flatMap topicsOf).dedup).length
    ∧ replace4 tpl cj data.length (topicCount data) sc
      = pyReplace
          (pyReplace
            (pyReplace (pyReplace tpl "PLACEHOLDER_DATA" cj)
              "PLACEHOLDER_VIDEO_COUNT" (toString data.length))
            "PLACEHOLDER_TOPIC_COUNT" (toString ((data.flatMap topicsOf).dedup).length))
          "PLACEHOLDER_SUTTA_COUNT" (toString sc) := by
  refine ⟨topicCount_eq_dedup data, ?_⟩
  rw [← topicCount_eq_dedup]
  rfl

/-- The three-record list of the spec's date-range example. -/
def c7Data : List VideoRecord :=
  [{ title := some (.str "A"), youtube_url := some (.str "uA"),
     date := some (.str "2021-03-05") },
   { title := some (.str "B"), youtube_url := some (.str "uB"),
     date := some (.str "2019-11-02") },
   { title := some (.str "C"), youtube_url := some (.str "uC"),
     date := some (.str "2020-01-01") }]

/-- C7: the date range collects the non-empty dates, sorts them ascending
lexicographically (for every input the computed list is sorted in the
code-point string order and a permutation of the non-empty dates), takes
first and last and renders each as month name and year; on the example
dates the sort yields 2019-11-02 first and 2021-03-05 last, rendered
November 2019 and March 2021. -/
theorem c7_date_range_sorted :
    (∀ data : List VideoRecord,
        (sortedDates data).Sorted pyLe ∧ (sortedDates data).Perm (dateStrings data))
    ∧ sortedDates c7Data = ["2019-11-02", "2020-01-01", "2021-03-05"]
    ∧ buildDateRange c7Data = .ok (some ("November 2019", "March 2021")) :=
  ⟨fun data => ⟨sortedDates_sorted data, sortedDates_perm data⟩, by decide, by decide⟩

/-- A record whose date is the lexicographic middle of three and does not
parse as a date. -/
def c9Bad : VideoRecord :=
  { title := some (.str "B"), youtube_url := some (.str "uB"),
    date := some (.str "2020-99-99") }

/-- The C9 counterexample list: an unparseable date strictly between two
parseable ones in lexicographic order. -/
def c9Data : List VideoRecord :=
  [{ title := some (.str "A"), youtube_url := some (.str "uA"),
     date := some (.str "2019-01-01") },
   c9Bad,
   { title := some (.str "C"), youtube_url := some (.str "uC"),
     date := some (.str "2021-01-01") }]

/-- C9 (counterexample): this list contains a record whose date is a
non-empty string that strptime rejects, yet the run raises nothing, writes
the output file and exits normally — because only the first and last
entries of the sorted date list are ever parsed, and the bad date sorts
strictly between them. -/
theorem c9_counterexample :
    (c9Bad ∈ c9Data ∧ c9Bad.date = some (.str "2020-99-99")
      ∧ strptimeYmd "2020-99-99" = .error (.valueError "2020-99-99"))
    ∧ (runBuild ⟨some (.records c9Data), some "T", none⟩).written.isSome = true
    ∧ (runBuild ⟨some (.records c9Data), some "T", none⟩).exit = .ok := by
  exact ⟨⟨by decide, by decide, by decide⟩, by decide, by decide⟩

/-- C9 (amended): an unparseable non-empty date aborts the build — with an
uncaught ValueError raised before the output file is opened, so nothing is
written — exactly when it is the lexicographically first or last of the
non-empty dates; a bad date strictly inside the sorted order is never
parsed. -/
theorem c9_amended_extreme_bad_date (d0 : String) (rest : List String)
    {fs : FS} {data : List VideoRecord} {tpl : String} {e : BuildErr}
    (hd : fs.dataJson = some (.records data)) (ht : fs.templateHtml = some tpl)
    (hv : ∀ v ∈ data, requiredOkB v = true)
    (hds : sortedDates data = d0 :: rest)
    (hbad : strptimeYmd d0 = .error e
      ∨ ((∃ p, strptimeYmd d0 = .ok p) ∧ strptimeYmd (rest.getLastD d0) = .error e)) :
    (runBuild fs).written = none ∧ (runBuild fs).exit = .raised e := by
  have hbdr : buildDateRange data = .error e := by
    have hstep : buildDateRange data =
        (match strptimeYmd d0 with
         | .error e2 => .error e2
         | .ok p0 =>
           match strptimeYmd (rest.getLastD d0) with
           | .error e2 => .error e2
           | .ok p1 => .ok (some (fmtMonthYear p0, fmtMonthYear p1))) := by
      unfold buildDateRange
      rw [hds]
    rw [hstep]
    rcases hbad with h1 | ⟨⟨p, hp⟩, h2⟩
    · rw [h1]
    · rw [hp, h2]
  obtain ⟨cs, hcs, _⟩ := compactAll_of_valid hv
  cases fs with
  | mk dj th ei =>
    simp only [FS.dataJson, FS.templateHtml] at hd ht
    subst hd
    subst ht
    rw [runBuild_eval hcs, hbdr]
    exact ⟨rfl, rfl⟩

/-- A record whose only date is unparseable, hence the lexicographic
minimum of the date list. -/
def bogusDateRec : VideoRecord :=
  { title := some (.str "Bad"), youtube_url := some (.str "uX"),
    date := some (.str "bogus") }

/-- Witness for the amended C9 at a concrete state whose single date fails
to parse. -/
theorem c9_amended_extreme_bad_date_witness :
    (runBuild ⟨some (.records [bogusDateRec]), some "T", none⟩).written = none
    ∧ (runBuild ⟨some (.records [bogusDateRec]), some "T", none⟩).exit
        = .raised (.valueError "bogus") :=
  c9_amended_extreme_bad_date "bogus" [] rfl rfl (by decide) (by decide)
    (Or.inl (by decide))

/-- C10: in compaction a sutta_refs entry with a present-but-null url keeps
the null, serialized as the JSON token null in the embedded payload, while
a present-but-null label is coalesced to the empty string; only the label
is null-coalesced (build.py lines 59-60). -/
theorem c10_url_null_label_coalesced {s : SuttaRef} {i : StrOrNull}
    (hid : s.sutta_id = some i) (hu : s.url = some .null) (hl : s.label = some .null) :
    compactSutta s = .ok ⟨i, .null, ""⟩
    ∧ strContains "\"url\":null" (dumpSutta ⟨i, .null, ""⟩) := by
  constructor
  · unfold compactSutta
    rw [hid, hu, hl]
    rfl
  · refine ⟨"\x7b\"id\":".data ++ (dumpSN i).data ++ [','], ",\"l\":\"\"\x7d".data, ?_⟩
    show (((((("\x7b\"id\":".data ++ (dumpSN i).data) ++ ",\"url\":".data) ++ "null".data)
        ++ ",\"l\":".data) ++ (jsonStr "").data) ++ "\x7d".data) = _
    simp only [List.append_assoc]
    congr 1

/-- Witness for C10 at a concrete sutta reference. -/
theorem c10_url_null_label_coalesced_witness :
    compactSutta { sutta_id := some (.str "MN 1"), url := some .null, label := some .null }
        = .ok ⟨.str "MN 1", .null, ""⟩
    ∧ strContains "\"url\":null" (dumpSutta ⟨.str "MN 1", .null, ""⟩) :=
  c10_url_null_label_coalesced rfl rfl rfl

end DharmaBuild
